import Mathlib

/-!
Verification development for the Budget & Forecast analytics core.

The definitions below are a shallow embedding of the Python source:

* `histCol`, `futureCol`, `projectHist`, `projectFuture` embed the
  per-expense regressor-column construction of
  `python_service/ml_service.py::forecast_with_expenses`
  (historical frame, lines 156-181; future frame, lines 200-228).
* `listMean`, `sampleVar`, `zscoreSq`, `anomaly_detection` embed
  `python_service/ml_service.py::anomaly_detection` (lines 370-402).
* `sortDesc`, `pySlice`, `pyInt`, `rankScores`, `meanAbsCols`,
  `get_top_features` embed `ml/shap_explain.py::get_top_features`
  (lines 182-206).

Floating-point amounts and scores are modelled as exact rationals; the
only float phenomenon the claims touch (0/0 = NaN with NaN comparisons
being false) is modelled explicitly with `Option`.
-/

/-- A calendar date, as carried by the pandas timestamps in the source.
Ordering and bucketing only ever use the (year, month, day) fields. -/
structure Date where
  year : Nat
  month : Nat
  day : Nat
deriving DecidableEq, Repr

/-- Lexicographic order on dates: `dateLe a b` embeds `a <= b` on pandas
timestamps. -/
def dateLe (a b : Date) : Bool :=
  decide (a.year < b.year) ||
    (decide (a.year = b.year) &&
      (decide (a.month < b.month) ||
        (decide (a.month = b.month) && decide (a.day ≤ b.day))))

/-- Gregorian leap-year rule, as used by pandas timestamps. -/
def isLeap (y : Nat) : Bool :=
  decide (y % 4 = 0) && (decide (y % 100 ≠ 0) || decide (y % 400 = 0))

/-- Number of days in a month of a given year. -/
def daysInMonth (y m : Nat) : Nat :=
  if m = 2 then (if isLeap y then 29 else 28)
  else if m = 4 ∨ m = 6 ∨ m = 9 ∨ m = 11 then 30
  else 31

/-- `expense_date + pd.DateOffset(months=n)`: advance the month, clamping
the day to the length of the target month (pandas clamps Jan 31 + 1 month
to Feb 28). -/
def addMonths (d : Date) (n : Nat) : Date :=
  let t := d.month - 1 + n
  let y := d.year + t / 12
  let m := t % 12 + 1
  ⟨y, m, min d.day (daysInMonth y m)⟩

/-- Successor day, used only to build the caller-side daily date range. -/
def nextDay (d : Date) : Date :=
  if d.day < daysInMonth d.year d.month then ⟨d.year, d.month, d.day + 1⟩
  else if d.month < 12 then ⟨d.year, d.month + 1, 1⟩
  else ⟨d.year + 1, 1, 1⟩

/-- The caller's inclusive daily date range of `n` days starting at
`start` (the `df['ds']` column handed to the projection). -/
def dailyRange (start : Date) : Nat → List Date
  | 0 => []
  | n + 1 => start :: dailyRange (nextDay start) n

/-- One entry of the `expenses` payload of `forecast_with_expenses`:
name, amount, start date and the optional `frequency` tag
(`expense.get('frequency')` returns `None` when the key is absent). -/
structure Event where
  name : String
  amount : ℚ
  date : Date
  frequency : Option String
deriving DecidableEq, Repr

/-- `expense['name'].replace(' ', '_').lower()`: spaces to underscores,
then lowercased (ASCII lowering, which is all the source's names use). -/
def sanitize (s : String) : String :=
  ⟨(s.data.map (fun c => if c = ' ' then '_' else c)).map Char.toLower⟩

/-- `(df['ds'] >= expense_date).astype(int) * expense_amount`: the step
column that gives `amount` on every row date on or after the event's
start date and `0` before it.  The future path's
`future[name] = 0; future.loc[future['ds'] >= expense_date, name] = amount`
produces the same column. -/
def stepCol (dates : List Date) (e : Event) : List ℚ :=
  dates.map (fun d => if dateLe e.date d then e.amount else 0)

/-- `df.loc[mask, name] += amount` with
`mask = (year == y) & (month == m)`: add `amt` to the rows of `col`
whose date falls in calendar bucket `(y, m)`. -/
def addBucket (dates : List Date) (col : List ℚ) (y m : Nat) (amt : ℚ) :
    List ℚ :=
  (dates.zip col).map
    (fun p => if p.1.year = y ∧ p.1.month = m then p.2 + amt else p.2)

/-- `future.loc[mask, name] = amount` with the same month mask: set the
rows of `col` whose date falls in bucket `(y, m)` to `amt`. -/
def setBucket (dates : List Date) (col : List ℚ) (y m : Nat) (amt : ℚ) :
    List ℚ :=
  (dates.zip col).map
    (fun p => if p.1.year = y ∧ p.1.month = m then amt else p.2)

/-- `df['ds'].max()` for the nonempty date column (the endpoint always
runs it on the caller's historical dates). -/
def listMaxD : List Date → Date
  | [] => ⟨0, 1, 1⟩
  | d :: ds => ds.foldl (fun a b => if dateLe a b then b else a) d

/-- Historical-frame column for one expense
(`forecast_with_expenses`, lines 156-181): first the unconditional step
baseline, then, for a `monthly` (resp. `quarterly`) tag, the loop
`for i in range(1, 60)` (resp. `range(1, 20)`) that stops at the first
offset past `df['ds'].max()` and does `+=` on each month bucket hit.
Any other frequency value leaves the step baseline untouched. -/
def histCol (dates : List Date) (e : Event) : List ℚ :=
  let base := stepCol dates e
  let maxD := listMaxD dates
  if e.frequency = some "monthly" then
    ((List.range' 1 59).takeWhile
        (fun i => dateLe (addMonths e.date i) maxD)).foldl
      (fun col i =>
        let nd := addMonths e.date i
        addBucket dates col nd.year nd.month e.amount) base
  else if e.frequency = some "quarterly" then
    ((List.range' 1 19).takeWhile
        (fun i => dateLe (addMonths e.date (i * 3)) maxD)).foldl
      (fun col i =>
        let nd := addMonths e.date (i * 3)
        addBucket dates col nd.year nd.month e.amount) base
  else base

/-- `min` of a nonempty list of naturals (pandas `.min()`). -/
def listMinNat : List Nat → Nat
  | [] => 0
  | x :: xs => xs.foldl Nat.min x

/-- `max` of a nonempty list of naturals (pandas `.max()`). -/
def listMaxNat : List Nat → Nat
  | [] => 0
  | x :: xs => xs.foldl Nat.max x

/-- `range(xs.min(), xs.max() + 1)` over a nonempty list. -/
def inclRange (xs : List Nat) : List Nat :=
  List.range' (listMinNat xs) (listMaxNat xs + 1 - listMinNat xs)

/-- Future-frame column for one expense
(`forecast_with_expenses`, lines 200-228): zero-initialise, set the step
where `ds >= expense_date`, then for `monthly` iterate every (month,
year) of the frame and *set* (not add) the bucket to `amount` whenever
the bucket's first day is on or after the start date; for `quarterly`
iterate quarters and additionally require the event's own start month to
lie in the quarter being written. -/
def futureCol (dates : List Date) (e : Event) : List ℚ :=
  let base := stepCol dates e
  let years := inclRange (dates.map Date.year)
  if e.frequency = some "monthly" then
    (inclRange (dates.map Date.month)).foldl
      (fun col m =>
        years.foldl
          (fun col y =>
            if dateLe e.date ⟨y, m, 1⟩ then setBucket dates col y m e.amount
            else col) col) base
  else if e.frequency = some "quarterly" then
    (List.range' 1 4).foldl
      (fun col q =>
        let months := [q * 3 - 2, q * 3 - 1, q * 3]
        years.foldl
          (fun col y =>
            months.foldl
              (fun col m =>
                if dateLe e.date ⟨y, m, 1⟩ then
                  (if e.date.month ∈ months then
                    setBucket dates col y m e.amount
                  else col)
                else col) col) col) base
  else base

/-- `df[name] = col` on a pandas frame keyed by column name: replace the
column if the key exists, otherwise append it. -/
def assocSet (l : List (String × List ℚ)) (k : String) (v : List ℚ) :
    List (String × List ℚ) :=
  match l with
  | [] => [(k, v)]
  | (k', v') :: rest =>
      if k' = k then (k, v) :: rest else (k', v') :: assocSet rest k v

/-- The expense-column block of the historical frame: the
`for expense in expenses` loop of lines 156-181, each iteration
(re)assigning the column keyed by the sanitized name. -/
def projectHist (dates : List Date) (events : List Event) :
    List (String × List ℚ) :=
  events.foldl (fun acc e => assocSet acc (sanitize e.name) (histCol dates e)) []

/-- The expense-column block of the future frame: the
`for expense in expenses` loop of lines 200-228. -/
def projectFuture (dates : List Date) (events : List Event) :
    List (String × List ℚ) :=
  events.foldl
    (fun acc e => assocSet acc (sanitize e.name) (futureCol dates e)) []

/-- `df['value'].mean()`: mean of the value column. -/
def listMean (values : List ℚ) : ℚ := values.sum / values.length

/-- `df['value'].std()`: pandas' default sample standard deviation
(`ddof = 1`).  The variance `Σ (v - mean)² / (n - 1)` is kept instead of
the standard deviation so everything stays rational; `none` models the
`NaN` that pandas returns for a series of fewer than two points. -/
def sampleVar (values : List ℚ) : Option ℚ :=
  if values.length < 2 then none
  else some
    ((values.map (fun v => (v - listMean values) ^ 2)).sum /
      ((values.length : ℚ) - 1))

/-- `(df['value'] - mean) / std`, squared, for one value drawn from the
series.  Working with the square is exact (the signed z-score involves a
square root): for a threshold `t ≥ 0`, `|z| > t ↔ z² > t²`.  `none`
models the float `NaN`: when the std is `NaN` (fewer than two points) or
`0` — in which case every deviation of a series member is `0`, so the
float computation is `0 / 0 = NaN`. -/
def zscoreSq (values : List ℚ) (v : ℚ) : Option ℚ :=
  match sampleVar values with
  | none => none
  | some s2 => if s2 = 0 then none else some ((v - listMean values) ^ 2 / s2)

/-- `abs(df['zscore']) > threshold` on a float z-score whose square is
`z2`: `NaN` compares false; for `t ≥ 0` the comparison is `z² > t²`; a
negative threshold is exceeded by every non-`NaN` score. -/
def pyAbsGt (z2 : Option ℚ) (t : ℚ) : Bool :=
  match z2 with
  | none => false
  | some z2 => if 0 ≤ t then decide (z2 > t ^ 2) else true

/-- The `is_anomaly` value the endpoint computes for one value of the
series. -/
def anomalyFlag (values : List ℚ) (t : ℚ) (v : ℚ) : Bool :=
  pyAbsGt (zscoreSq values v) t

/-- The zscore column `df['zscore']` (squared, `none` for `NaN`). -/
def zscoreCol (values : List ℚ) : List (Option ℚ) :=
  values.map (zscoreSq values)

/-- The `/analytics/anomaly_detection` zscore branch
(`ml_service.py`, lines 370-402) on a list of `(date, value)` records:
`pd.DataFrame([])` has no columns at all, so `df['date']` raises
`KeyError` for an empty payload (surfaced by the endpoint's `except` as
an error response); otherwise the rows whose `is_anomaly` is true are
returned in input order as `(date, value, is_anomaly)` records — the
`zscore` field is deleted from each returned record. -/
def anomaly_detection (pts : List (String × ℚ)) (t : ℚ) :
    Except String (List (String × ℚ × Bool)) :=
  if pts = [] then Except.error "KeyError: date"
  else
    let values := pts.map Prod.snd
    let flags := values.map (anomalyFlag values t)
    Except.ok
      (((pts.zip flags).filter (fun x => x.2)).map
        (fun x => (x.1.1, x.1.2, x.2)))

/-- Modelled from the spec: the score the claims describe — population
standard deviation over all values, score `(v - mean) / sigma` when
`sigma > 0` and `0` when `sigma = 0` (squared, as above, for exactness).
Used only for comparison against the code's `zscoreSq`. -/
def claimZscoreSq (values : List ℚ) (v : ℚ) : Option ℚ :=
  let popVar := (values.map (fun w => (w - listMean values) ^ 2)).sum /
    (values.length : ℚ)
  if popVar = 0 then some 0 else some ((v - listMean values) ^ 2 / popVar)

/-- Stable insertion (descending by the importance component): the new
element goes after every strictly larger earlier element and before
ties, which is exactly where Python's stable
`sorted(key=..., reverse=True)` puts it. -/
def insertDesc (x : String × ℚ) : List (String × ℚ) → List (String × ℚ)
  | [] => [x]
  | y :: ys => if x.2 < y.2 then y :: insertDesc x ys else x :: y :: ys

/-- `sorted(feature_importance, key=lambda x: x[1], reverse=True)`:
stable descending sort by importance. -/
def sortDesc (l : List (String × ℚ)) : List (String × ℚ) :=
  l.foldr insertDesc []

/-- Python's slice `l[:n]`: the first `n` elements for `n ≥ 0`, and all
but the last `|n|` elements for negative `n`. -/
def pySlice (l : List α) (n : Int) : List α :=
  if 0 ≤ n then l.take n.toNat else l.take (l.length - n.natAbs)

/-- Python's `int()` on a float: truncation toward zero. -/
def pyInt (q : ℚ) : Int := if 0 ≤ q then q.floor else -((-q).floor)

/-- The ranking-and-normalization tail of
`shap_explain.py::get_top_features` (lines 188-206), starting from the
`(feature, mean_abs_importance)` pairs: stable descending sort, Python
slice `[:top_n]`, `max_importance = top_features[0][1] if top_features
else 1`, and per entry
`int(100 * importance / max_importance) if max_importance else 0`. -/
def rankScores (fi : List (String × ℚ)) (top_n : Int) : List (String × Int) :=
  let sorted := sortDesc fi
  let top := pySlice sorted top_n
  let maxI : ℚ := match top with | [] => 1 | p :: _ => p.2
  top.map (fun p => (p.1, if maxI = 0 then 0 else pyInt (100 * p.2 / maxI)))

/-- `np.abs(shap_values).mean(axis=0)` on a rectangular matrix given as
a list of sample rows: the per-column mean of absolute values. -/
def meanAbsCols (rows : List (List ℚ)) : List ℚ :=
  rows.transpose.map (fun col => (col.map abs).sum / col.length)

/-- `shap_explain.py::get_top_features` (lines 182-206): per-feature
mean absolute SHAP value, `zip(feature_names, mean_abs_shap)`, then
rank and normalize. -/
def get_top_features (shap : List (List ℚ)) (names : List String)
    (top_n : Int) : List (String × Int) :=
  rankScores (names.zip (meanAbsCols shap)) top_n

/-! ### Helper lemmas shared by the claim theorems -/

/-- Membership is preserved by stable descending insertion. -/
theorem mem_insertDesc {a x : String × ℚ} :
    ∀ {l : List (String × ℚ)}, a ∈ insertDesc x l ↔ a = x ∨ a ∈ l := by
  intro l
  induction l with
  | nil => simp [insertDesc]
  | cons y ys ih =>
      by_cases h : x.2 < y.2 <;> simp [insertDesc, h, ih] <;> tauto

/-- Membership is preserved by the stable descending sort. -/
theorem mem_sortDesc {a : String × ℚ} :
    ∀ {l : List (String × ℚ)}, a ∈ sortDesc l ↔ a ∈ l := by
  intro l
  induction l with
  | nil => simp [sortDesc]
  | cons y ys ih =>
      simp only [sortDesc, List.foldr_cons, List.mem_cons]
      rw [show ys.foldr insertDesc [] = sortDesc ys from rfl] at *
      rw [mem_insertDesc, ih]

/-- Stable descending insertion adds exactly one element. -/
theorem length_insertDesc (x : String × ℚ) :
    ∀ (l : List (String × ℚ)), (insertDesc x l).length = l.length + 1 := by
  intro l
  induction l with
  | nil => simp [insertDesc]
  | cons y ys ih =>
      by_cases h : x.2 < y.2 <;> simp [insertDesc, h, ih]

/-- The stable descending sort preserves length. -/
theorem length_sortDesc :
    ∀ (l : List (String × ℚ)), (sortDesc l).length = l.length := by
  intro l
  induction l with
  | nil => rfl
  | cons y ys ih =>
      simp only [sortDesc, List.foldr_cons] at *
      rw [length_insertDesc, ih, List.length_cons]

/-- Stable descending insertion preserves descending order. -/
theorem pairwise_insertDesc {x : String × ℚ} :
    ∀ {l : List (String × ℚ)},
      l.Pairwise (fun a b => b.2 ≤ a.2) →
        (insertDesc x l).Pairwise (fun a b => b.2 ≤ a.2) := by
  intro l
  induction l with
  | nil => intro _; simp [insertDesc]
  | cons y ys ih =>
      intro hp
      rcases List.pairwise_cons.1 hp with ⟨hy, hys⟩
      by_cases h : x.2 < y.2
      · rw [insertDesc, if_pos h]
        refine List.pairwise_cons.2 ⟨?_, ih hys⟩
        intro b hb
        rcases mem_insertDesc.1 hb with hbx | hbl
        · exact hbx ▸ le_of_lt h
        · exact hy b hbl
      · rw [insertDesc, if_neg h]
        push_neg at h
        refine List.pairwise_cons.2 ⟨?_, hp⟩
        intro b hb
        rcases List.mem_cons.1 hb with hby | hbl
        · exact hby ▸ h
        · exact le_trans (hy b hbl) h

/-- The result of the stable descending sort is descending. -/
theorem pairwise_sortDesc :
    ∀ (l : List (String × ℚ)),
      (sortDesc l).Pairwise (fun a b => b.2 ≤ a.2) := by
  intro l
  induction l with
  | nil => simp [sortDesc]
  | cons y ys ih =>
      simpa only [sortDesc, List.foldr_cons] using pairwise_insertDesc ih

/-- In a descending list the head dominates every member. -/
theorem head_dominates {h : String × ℚ} {t : List (String × ℚ)}
    (hp : (h :: t).Pairwise (fun a b => b.2 ≤ a.2)) :
    ∀ a ∈ h :: t, a.2 ≤ h.2 := by
  intro a ha
  rcases List.mem_cons.1 ha with rfl | hat
  · exact le_refl _
  · exact (List.pairwise_cons.1 hp).1 a hat

/-- A list all of whose members equal `c` sums to `c * length`. -/
theorem sum_const_list {c : ℚ} :
    ∀ {xs : List ℚ}, (∀ v ∈ xs, v = c) → xs.sum = c * xs.length := by
  intro xs
  induction xs with
  | nil => intro _; simp
  | cons y ys ih =>
      intro hall
      have hy : y = c := hall y (List.mem_cons_self y ys)
      have hys : ∀ v ∈ ys, v = c := fun v hv => hall v (List.mem_cons_of_mem y hv)
      rw [List.sum_cons, ih hys, hy, List.length_cons]
      push_cast
      ring

/-- The mean of a nonempty constant series is the constant. -/
theorem listMean_const {c : ℚ} {xs : List ℚ} (hne : xs ≠ [])
    (hall : ∀ v ∈ xs, v = c) : listMean xs = c := by
  have hlen : (xs.length : ℚ) ≠ 0 := by
    exact_mod_cast Nat.cast_ne_zero.2 (fun h => hne (List.length_eq_zero.1 h))
  rw [listMean, sum_const_list hall]
  field_simp

/-- On a constant series the code's z-score is the float `NaN`
(variance `0`, giving `0 / 0`), modelled as `none` — for two or more
points because the sample variance is `0`, for fewer because the sample
standard deviation itself is `NaN`. -/
theorem zscoreSq_const {c : ℚ} {xs : List ℚ} (hne : xs ≠ [])
    (hall : ∀ v ∈ xs, v = c) : ∀ v, zscoreSq xs v = none := by
  intro v
  rw [zscoreSq]
  by_cases hlen : xs.length < 2
  · rw [sampleVar, if_pos hlen]
  · have hmap : xs.map (fun v => (v - listMean xs) ^ 2) = xs.map (fun _ => 0) := by
      refine List.map_congr_left ?_
      intro a ha
      rw [hall a ha, listMean_const hne hall, sub_self]
      ring
    rw [sampleVar, if_neg hlen, hmap]
    simp

/-- Filtering a list zipped against the pointwise image of its own
values keeps exactly the rows whose value satisfies the predicate. -/
theorem filter_zip_map (f : ℚ → Bool) :
    ∀ (pts : List (String × ℚ)),
      (((pts.zip (pts.map (fun p => f p.2))).filter (fun x => x.2)).map
          (fun x => (x.1.1, x.1.2, x.2)))
        = (pts.filter (fun p => f p.2)).map (fun p => (p.1, p.2, true)) := by
  intro pts
  induction pts with
  | nil => rfl
  | cons p rest ih =>
      cases h : f p.2 <;>
        simp [List.zip_cons_cons, List.filter_cons, h, ih]

/-! ### C4 -/

/-- C4, counterexample: for the five-point series
(d1,0) … (d4,0), (d5,100) with threshold 1.5 the endpoint returns a
single record — only the flagged point, with no score field — not one
result per input point, so the claim that every input point yields a
result with its signed z-score retained is false on the code. -/
theorem c4_output_filtered_cex :
    anomaly_detection [("d1", 0), ("d2", 0), ("d3", 0), ("d4", 0),
        ("d5", 100)] (3 / 2)
      = Except.ok [("d5", 100, true)] ∧ (1 : Nat) ≠ 5 := by
  constructor
  · rw [anomaly_detection, if_neg (by simp)]
    norm_num [anomalyFlag, zscoreSq, sampleVar, listMean, pyAbsGt]
  · decide

/-- C4 (amended): anomaly detection returns only the points flagged
anomalous, one record per flagged point, in input order, each record
carrying (date, value, is_anomaly) with the z-score field removed;
non-anomalous points are omitted from the output. -/
theorem c4_only_flagged_points_returned (pts : List (String × ℚ)) (t : ℚ)
    (h : pts ≠ []) :
    anomaly_detection pts t =
      Except.ok
        ((pts.filter (fun p => anomalyFlag (pts.map Prod.snd) t p.2)).map
          (fun p => (p.1, p.2, true))) := by
  rw [anomaly_detection, if_neg h]
  simp only [List.map_map]
  exact congrArg Except.ok
    (filter_zip_map (anomalyFlag (pts.map Prod.snd) t) pts)

/-- Witness for C4: the amended statement evaluated on the concrete
five-point series of the counterexample. -/
theorem c4_only_flagged_points_returned_witness :
    (([("d1", 0), ("d2", 0), ("d3", 0), ("d4", 0), ("d5", 100)] :
        List (String × ℚ)) ≠ []) ∧
    anomaly_detection [("d1", 0), ("d2", 0), ("d3", 0), ("d4", 0),
        ("d5", 100)] (3 / 2)
      = Except.ok [("d5", 100, true)] := by
  refine ⟨by simp, ?_⟩
  rw [c4_only_flagged_points_returned _ _ (by simp)]
  norm_num [anomalyFlag, zscoreSq, sampleVar, listMean, pyAbsGt]

/-! ### C5 -/

/-- C5, counterexample: the code divides by the sample standard
deviation (`ddof = 1`), not the population one — on `[0, 2]` its squared
z-scores are `1/2` where the claim's formula gives `1` — and on the
constant series `[5, 5, 5]` the code's scores are the float `NaN`
(modelled `none`), not the `0` the claim states. -/
theorem c5_population_guard_cex :
    zscoreCol [0, 2] = [some (1 / 2), some (1 / 2)] ∧
    claimZscoreSq [0, 2] 2 = some 1 ∧
    zscoreCol [5, 5, 5] = [none, none, none] ∧
    some ((1 : ℚ) / 2) ≠ some (1 : ℚ) ∧
    (none : Option ℚ) ≠ some (0 : ℚ) := by
  refine ⟨?_, ?_, ?_, by norm_num, by simp⟩
  · norm_num [zscoreCol, zscoreSq, sampleVar, listMean]
  · norm_num [claimZscoreSq, listMean]
  · norm_num [zscoreCol, zscoreSq, sampleVar, listMean]

/-- C5 (amended): the code computes the mean and the *sample* standard
deviation (`ddof = 1`); there is no `sigma = 0` guard, so on a series of
equal values every score is the float `NaN` (0/0, modelled `none`)
rather than `0`; since `NaN` comparisons are false, no point is flagged
and no division-by-zero error is raised — for `[5, 5, 5]` the endpoint
returns an empty anomaly list. -/
theorem c5_zero_variance_no_flags (pts : List (String × ℚ)) (c t : ℚ)
    (h1 : pts ≠ []) (h2 : ∀ p ∈ pts, p.2 = c) :
    (∀ z ∈ zscoreCol (pts.map Prod.snd), z = none) ∧
    anomaly_detection pts t = Except.ok [] := by
  have hvne : pts.map Prod.snd ≠ [] := by
    simpa using h1
  have hv : ∀ v ∈ pts.map Prod.snd, v = c := by
    intro v hvmem
    rcases List.mem_map.1 hvmem with ⟨p, hp, rfl⟩
    exact h2 p hp
  have hnone := zscoreSq_const hvne hv
  constructor
  · intro z hz
    rcases List.mem_map.1 hz with ⟨v, _, rfl⟩
    exact hnone v
  · have hflag : ∀ p ∈ pts,
        ¬ (anomalyFlag (pts.map Prod.snd) t p.2 = true) := by
      intro p _
      rw [anomalyFlag, hnone p.2]
      simp [pyAbsGt]
    rw [anomaly_detection, if_neg h1]
    simp only [List.map_map, Function.comp_def]
    rw [filter_zip_map, List.filter_eq_nil_iff.2 hflag]
    rfl

/-- Witness for C5: the amended statement evaluated on the constant
series `[5, 5, 5]` at the default threshold. -/
theorem c5_zero_variance_no_flags_witness :
    ((([("a", 5), ("b", 5), ("c", 5)] : List (String × ℚ)) ≠ []) ∧
      (∀ p ∈ ([("a", 5), ("b", 5), ("c", 5)] : List (String × ℚ)),
        p.2 = 5)) ∧
    (∀ z ∈ zscoreCol
        (([("a", 5), ("b", 5), ("c", 5)] : List (String × ℚ)).map Prod.snd),
      z = none) ∧
    anomaly_detection [("a", 5), ("b", 5), ("c", 5)] 3 = Except.ok [] := by
  refine ⟨⟨by simp, by decide⟩, ?_⟩
  exact c5_zero_variance_no_flags [("a", 5), ("b", 5), ("c", 5)] 5 3
    (by simp) (by decide)

/-! ### C6 -/

/-- C6, counterexample: for `[10, 10, 10, 10, 100]` at threshold `3.0`
no point is flagged — the last point's squared z-score is `16/5`
(|z| ≈ 1.79 with the code's sample standard deviation), which does not
exceed `3`, so the claim that the last point is flagged is false. -/
theorem c6_threshold3_not_flagged_cex :
    [10, 10, 10, 10, (100 : ℚ)].map (anomalyFlag [10, 10, 10, 10, 100] 3)
      = [false, false, false, false, false] ∧
    anomaly_detection [("p1", 10), ("p2", 10), ("p3", 10), ("p4", 10),
        ("p5", 100)] 3
      = Except.ok [] ∧
    false ≠ true := by
  refine ⟨?_, ?_, by simp⟩
  · norm_num [anomalyFlag, zscoreSq, sampleVar, listMean, pyAbsGt]
  · rw [anomaly_detection, if_neg (by simp)]
    norm_num [anomalyFlag, zscoreSq, sampleVar, listMean, pyAbsGt]

/-- C6 (amended): for `[10, 10, 10, 10, 100]` the last point's squared
z-score is `16/5`, below `3²`, so at threshold `3.0` nothing is
flagged; at a threshold below `4/√5` — e.g. `1.5` — the last point is
flagged and the first four are not. -/
theorem c6_outlier_flagged_at_lower_threshold :
    zscoreSq [10, 10, 10, 10, (100 : ℚ)] 100 = some (16 / 5) ∧
    [10, 10, 10, 10, (100 : ℚ)].map
        (anomalyFlag [10, 10, 10, 10, 100] (3 / 2))
      = [false, false, false, false, true] := by
  constructor
  · norm_num [zscoreSq, sampleVar, listMean]
  · norm_num [anomalyFlag, zscoreSq, sampleVar, listMean, pyAbsGt]

/-! ### C7 -/

/-- C7, counterexample: on an empty series the endpoint raises (an empty
frame has no `date` column, so `df['date']` is a `KeyError`, surfaced as
an error response), rather than returning an empty result. -/
theorem c7_detect_empty_errors_cex :
    anomaly_detection ([] : List (String × ℚ)) 5
        = Except.error "KeyError: date" ∧
    (Except.error "KeyError: date" :
        Except String (List (String × ℚ × Bool))) ≠ Except.ok [] := by
  exact ⟨rfl, by simp⟩

/-- C7 (amended): ranking an empty feature-score list returns an empty
result without error for every `top_n`, but detection on an empty series
raises a `KeyError` (no `date` column on an empty frame) that surfaces
as an error response — it does not return an empty result. -/
theorem c7_empty_inputs_behavior :
    (∀ t : ℚ, anomaly_detection [] t = Except.error "KeyError: date") ∧
    (∀ n : Int, rankScores [] n = []) := by
  constructor
  · intro t; rfl
  · intro n
    simp [rankScores, sortDesc, pySlice]

/-! ### C1 -/

/-- The daily row dates 2023-01-01 .. 2023-03-31 of the claim's
projection range. -/
def q1dates2023 : List Date :=
  (List.range' 1 31).map (fun d => ⟨2023, 1, d⟩) ++
    (List.range' 1 28).map (fun d => ⟨2023, 2, d⟩) ++
      (List.range' 1 31).map (fun d => ⟨2023, 3, d⟩)

/-- The claim's monthly event: amount 100 starting 2023-01-15. -/
def rentMonthly : Event := ⟨"Rent", 100, ⟨2023, 1, 15⟩, some "monthly"⟩

set_option maxRecDepth 100000 in
set_option maxHeartbeats 4000000 in
/-- C1, evaluation at the failing input: over 2023-01-01..2023-03-31 the
historical path hands every February and March row `200` — the
unconditional one-time step baseline plus the recurring `+=` — and the
January rows before the 15th get `0`, while the future path of the same
function hands the same February rows `100`; the claim's promised
constant per-bucket contribution of `100` in every bucket row is false
on the historical path and the two paths disagree. -/
theorem c1_monthly_double_count_eval :
    (histCol q1dates2023 rentMonthly).get? 0 = some 0 ∧
    (histCol q1dates2023 rentMonthly).get? 31 = some 200 ∧
    (histCol q1dates2023 rentMonthly).get? 59 = some 200 ∧
    (futureCol q1dates2023 rentMonthly).get? 0 = some 0 ∧
    (futureCol q1dates2023 rentMonthly).get? 31 = some 100 ∧
    q1dates2023.get? 0 = some ⟨2023, 1, 1⟩ ∧
    q1dates2023.get? 31 = some ⟨2023, 2, 1⟩ ∧
    q1dates2023.get? 59 = some ⟨2023, 3, 1⟩ ∧
    (200 : ℚ) ≠ 100 ∧ (0 : ℚ) ≠ 100 := by
  refine ⟨?_, ?_, ?_, ?_, ?_, by decide, by decide, by decide,
    by norm_num, by norm_num⟩ <;>
    norm_num [q1dates2023, rentMonthly, histCol, futureCol, addBucket,
      setBucket, stepCol, listMaxD, listMinNat, listMaxNat, inclRange,
      dateLe, addMonths, daysInMonth, isLeap, List.range', List.takeWhile]

/-! ### C2 -/

/-- C2, counterexample: two events that sanitize to the same key
(`"Rent"`, amounts 100 and 50, same start) merge to the *second* event's
column `[50, 50]`, not the pointwise sum `[150, 150]` — the first
event's contribution is silently overwritten. -/
theorem c2_collision_overwrite_cex :
    projectHist [⟨2023, 1, 1⟩, ⟨2023, 1, 2⟩]
        [⟨"Rent", 100, ⟨2023, 1, 1⟩, none⟩, ⟨"Rent", 50, ⟨2023, 1, 1⟩, none⟩]
      = [(sanitize "Rent", [50, 50])] ∧
    (50 : ℚ) ≠ 150 := by
  exact ⟨by rfl, by norm_num⟩

/-- C2 (amended): when two events share a sanitized column key, the
later event's column assignment silently overwrites the earlier one's —
both the historical and the future frame end up with exactly the second
event's contribution under that key (no sum, no error). -/
theorem c2_collision_last_writer_wins (dates : List Date) (e1 e2 : Event)
    (h : sanitize e1.name = sanitize e2.name) :
    projectHist dates [e1, e2] = [(sanitize e2.name, histCol dates e2)] ∧
    projectFuture dates [e1, e2]
      = [(sanitize e2.name, futureCol dates e2)] := by
  constructor <;> simp [projectHist, projectFuture, assocSet, h]

/-- Witness for C2: the amended statement evaluated on the two `"Rent"`
events of the counterexample. -/
theorem c2_collision_last_writer_wins_witness :
    sanitize "Rent" = sanitize "Rent" ∧
    projectHist [⟨2023, 1, 1⟩, ⟨2023, 1, 2⟩]
        [⟨"Rent", 100, ⟨2023, 1, 1⟩, none⟩, ⟨"Rent", 50, ⟨2023, 1, 1⟩, none⟩]
      = [(sanitize "Rent", [50, 50])] ∧
    projectFuture [⟨2023, 1, 1⟩, ⟨2023, 1, 2⟩]
        [⟨"Rent", 100, ⟨2023, 1, 1⟩, none⟩, ⟨"Rent", 50, ⟨2023, 1, 1⟩, none⟩]
      = [(sanitize "Rent", [50, 50])] := by
  refine ⟨rfl, ?_, ?_⟩
  · rw [(c2_collision_last_writer_wins [⟨2023, 1, 1⟩, ⟨2023, 1, 2⟩]
      ⟨"Rent", 100, ⟨2023, 1, 1⟩, none⟩ ⟨"Rent", 50, ⟨2023, 1, 1⟩, none⟩
      rfl).1]
    rfl
  · rw [(c2_collision_last_writer_wins [⟨2023, 1, 1⟩, ⟨2023, 1, 2⟩]
      ⟨"Rent", 100, ⟨2023, 1, 1⟩, none⟩ ⟨"Rent", 50, ⟨2023, 1, 1⟩, none⟩
      rfl).2]
    rfl

/-! ### C3 -/

/-- C3, counterexample: an event with the unrecognized frequency tag
`"weekly"` is not rejected — it produces the nonzero one-time step
series, so projection yields a contribution series instead of any typed
error. -/
theorem c3_unrecognized_frequency_cex :
    histCol [⟨2023, 1, 1⟩, ⟨2023, 1, 15⟩, ⟨2023, 2, 1⟩]
        ⟨"Fees", 100, ⟨2023, 1, 10⟩, some "weekly"⟩
      = [0, 100, 100] ∧
    (100 : ℚ) ≠ 0 := by
  exact ⟨by rfl, by norm_num⟩

/-- C3 (amended): an event whose frequency tag is neither `monthly` nor
`quarterly` is silently treated as a one-time event — both the
historical and the future path give it exactly the step series, never an
error. -/
theorem c3_unrecognized_frequency_step_fallback (dates : List Date)
    (e : Event) (h1 : e.frequency ≠ some "monthly")
    (h2 : e.frequency ≠ some "quarterly") :
    histCol dates e = stepCol dates e ∧
    futureCol dates e = stepCol dates e := by
  constructor <;> simp [histCol, futureCol, h1, h2]

/-- Witness for C3: the amended statement evaluated on a concrete
`"weekly"` event. -/
theorem c3_unrecognized_frequency_step_fallback_witness :
    ((⟨"Fees", 100, ⟨2023, 1, 10⟩, some "weekly"⟩ : Event).frequency
        ≠ some "monthly") ∧
    ((⟨"Fees", 100, ⟨2023, 1, 10⟩, some "weekly"⟩ : Event).frequency
        ≠ some "quarterly") ∧
    histCol [⟨2023, 1, 1⟩, ⟨2023, 1, 15⟩]
        ⟨"Fees", 100, ⟨2023, 1, 10⟩, some "weekly"⟩
      = stepCol [⟨2023, 1, 1⟩, ⟨2023, 1, 15⟩]
        ⟨"Fees", 100, ⟨2023, 1, 10⟩, some "weekly"⟩ ∧
    futureCol [⟨2023, 1, 1⟩, ⟨2023, 1, 15⟩]
        ⟨"Fees", 100, ⟨2023, 1, 10⟩, some "weekly"⟩
      = stepCol [⟨2023, 1, 1⟩, ⟨2023, 1, 15⟩]
        ⟨"Fees", 100, ⟨2023, 1, 10⟩, some "weekly"⟩ := by
  refine ⟨by simp, by simp, ?_, ?_⟩
  · exact (c3_unrecognized_frequency_step_fallback _ _ (by simp)
      (by simp)).1
  · exact (c3_unrecognized_frequency_step_fallback _ _ (by simp)
      (by simp)).2

/-- A Python slice of a list only contains members of the list. -/
theorem pySlice_subset (l : List α) (n : Int) : pySlice l n ⊆ l := by
  rw [pySlice]
  split <;> exact List.take_subset _ _

/-- A Python slice with a positive bound keeps the head. -/
theorem pySlice_pos_cons (x : α) (xs : List α) (n : Int) (hn : 0 < n) :
    pySlice (x :: xs) n = x :: xs.take (n.toNat - 1) := by
  rw [pySlice, if_pos (le_of_lt hn)]
  obtain ⟨k, hk⟩ : ∃ k, n.toNat = k + 1 := ⟨n.toNat - 1, by omega⟩
  rw [hk, List.take_succ_cons]
  congr 1

/-- `Rat.floor` agrees with the floor of the `FloorRing` instance. -/
theorem ratFloor_eq_intFloor (q : ℚ) : q.floor = ⌊q⌋ := rfl

/-- Per-column means of absolute values are nonnegative. -/
theorem meanAbsCols_nonneg {rows : List (List ℚ)} :
    ∀ q ∈ meanAbsCols rows, 0 ≤ q := by
  intro q hq
  rcases List.mem_map.1 hq with ⟨col, _, rfl⟩
  refine div_nonneg ?_ (by positivity)
  refine List.sum_nonneg ?_
  intro a ha
  rcases List.mem_map.1 ha with ⟨b, _, rfl⟩
  exact abs_nonneg b

/-! ### C8 -/

/-- C8, counterexample: with raw importances `a = 3`, `b = 2` and
`top_n = 2` under the percent scale, the second entry comes out as
`int(100 * 2 / 3) = 66` — Python's `int()` truncates toward zero —
whereas rounding `66.67` to the nearest integer as the claim states
would give `67`. -/
theorem c8_truncation_cex :
    rankScores [("a", 3), ("b", 2)] 2 = [("a", 100), ("b", 66)] ∧
    (66 : Int) ≠ 67 := by
  constructor
  · have h1 : pySlice (sortDesc [("a", 3), ("b", 2)]) 2
        = [("a", (3 : ℚ)), ("b", 2)] := by decide
    simp only [rankScores, h1]
    norm_num [pyInt, Rat.floor_def']
  · decide

/-- C8 (amended): under the percent scale each taken entry's raw
importance is divided by the top (maximum) entry's raw importance,
scaled to 0-100 and *truncated toward zero* (Python `int()`, the floor
for these nonnegative ratios) — not rounded to nearest; when the
maximum is `0`, every returned normalized importance is `0`. -/
theorem c8_percent_truncation (fs : List (String × ℚ)) (n : Int)
    (hpos : ∀ p ∈ fs, 0 ≤ p.2) (t : String × ℚ)
    (rest : List (String × ℚ))
    (htop : pySlice (sortDesc fs) n = t :: rest) :
    (t.2 = 0 → ∀ r ∈ rankScores fs n, r.2 = 0) ∧
    (0 < t.2 →
      rankScores fs n
        = (t :: rest).map (fun p => (p.1, (100 * p.2 / t.2).floor))) := by
  constructor
  · intro h0 r hr
    simp only [rankScores, htop] at hr
    rcases List.mem_map.1 hr with ⟨p, _, rfl⟩
    simp [h0]
  · intro hpos'
    simp only [rankScores, htop]
    refine List.map_congr_left ?_
    intro p hp
    have hpfs : p ∈ fs := by
      have : p ∈ pySlice (sortDesc fs) n := htop ▸ hp
      exact mem_sortDesc.1 (pySlice_subset _ _ this)
    have hq : 0 ≤ 100 * p.2 / t.2 :=
      div_nonneg (by linarith [hpos p hpfs]) (le_of_lt hpos')
    rw [if_neg (ne_of_gt hpos'), pyInt, if_pos hq]

/-- Witness for C8: the amended statement evaluated on the importances
`a = 3`, `b = 2` with `top_n = 2`. -/
theorem c8_percent_truncation_witness :
    (∀ p ∈ ([("a", 3), ("b", 2)] : List (String × ℚ)), 0 ≤ p.2) ∧
    pySlice (sortDesc [("a", 3), ("b", 2)]) 2
      = [("a", (3 : ℚ)), ("b", 2)] ∧
    (0 : ℚ) < 3 ∧
    rankScores [("a", 3), ("b", 2)] 2
      = [("a", (3 : ℚ)), ("b", 2)].map
          (fun p => (p.1, (100 * p.2 / 3).floor)) := by
  refine ⟨by decide, by decide, by norm_num, ?_⟩
  exact (c8_percent_truncation [("a", 3), ("b", 2)] 2 (by decide)
    ("a", 3) [("b", 2)] (by decide)).2 (by norm_num)

/-! ### C9 -/

/-- C9, counterexample: `top_n = -1` is not rejected with any typed
error — Python's slice semantics drop the last sorted entry and the
normalized remainder `[("a", 100)]` is returned. -/
theorem c9_negative_topn_cex :
    rankScores [("a", 3), ("b", 2)] (-1) = [("a", 100)] ∧
    ([("a", (100 : Int))] : List (String × Int)) ≠ [] := by
  constructor
  · have h1 : pySlice (sortDesc [("a", 3), ("b", 2)]) (-1)
        = [("a", (3 : ℚ))] := by decide
    simp only [rankScores, h1]
    norm_num [pyInt, Rat.floor_def']
  · simp

/-- C9 (amended): a non-positive `top_n` is not validated: `top_n = 0`
returns an empty list, and a negative `top_n` returns all but the last
`|top_n|` sorted entries (Python slice `[:top_n]`), normalized as
usual — never an error. -/
theorem c9_nonpositive_topn_no_error (fs : List (String × ℚ)) (n : Int)
    (h : n ≤ 0) :
    (rankScores fs n).length
      = if n = 0 then 0 else fs.length - n.natAbs := by
  rcases lt_or_eq_of_le h with hlt | heq
  · rw [if_neg (by omega)]
    simp only [rankScores, List.length_map, pySlice,
      if_neg (not_le.2 hlt), List.length_take, length_sortDesc]
    omega
  · subst heq
    simp [rankScores, pySlice]

/-- Witness for C9: the amended statement evaluated at `top_n = -1` on
a two-entry score list. -/
theorem c9_nonpositive_topn_no_error_witness :
    ((-1 : Int) ≤ 0) ∧
    (rankScores [("a", 3), ("b", 2)] (-1)).length = 1 := by
  refine ⟨by norm_num, ?_⟩
  rw [c9_nonpositive_topn_no_error [("a", 3), ("b", 2)] (-1) (by norm_num)]
  norm_num

/-! ### C10 -/

/-- C10: for every nonempty feature/mean-absolute-importance pairing
with a strictly positive maximum, `get_top_features` with a positive
`top_n` returns a nonempty ranked list whose first entry's normalized
importance is exactly `100` and all of whose normalized importances are
integers between `0` and `100` inclusive. -/
theorem c10_topfeatures_normalized (shap : List (List ℚ))
    (names : List String) (n : Int) (hn : 0 < n)
    (hne : names.zip (meanAbsCols shap) ≠ [])
    (hpos : ∃ p ∈ names.zip (meanAbsCols shap), 0 < p.2) :
    get_top_features shap names n ≠ [] ∧
    (∀ r, (get_top_features shap names n).head? = some r → r.2 = 100) ∧
    (∀ r ∈ get_top_features shap names n, 0 ≤ r.2 ∧ r.2 ≤ 100) := by
  have hall : ∀ p ∈ names.zip (meanAbsCols shap), 0 ≤ p.2 := by
    intro p hp
    exact meanAbsCols_nonneg p.2 (List.of_mem_zip hp).2
  cases hs : sortDesc (names.zip (meanAbsCols shap)) with
  | nil =>
      exfalso
      apply hne
      have := length_sortDesc (names.zip (meanAbsCols shap))
      rw [hs] at this
      exact List.length_eq_zero.1 this.symm
  | cons t rest =>
      have hdom : ∀ a ∈ t :: rest, a.2 ≤ t.2 :=
        head_dominates (hs ▸ pairwise_sortDesc (names.zip (meanAbsCols shap)))
      have htpos : 0 < t.2 := by
        rcases hpos with ⟨p, hp, hppos⟩
        have hpmem : p ∈ t :: rest := hs ▸ mem_sortDesc.2 hp
        exact lt_of_lt_of_le hppos (hdom p hpmem)
      have htop : pySlice (sortDesc (names.zip (meanAbsCols shap))) n
          = t :: rest.take (n.toNat - 1) := by
        rw [hs, pySlice_pos_cons t rest n hn]
      have hmem_fi : ∀ p ∈ t :: rest.take (n.toNat - 1),
          p ∈ names.zip (meanAbsCols shap) := by
        intro p hp
        rcases List.mem_cons.1 hp with hpt | hptk
        · rw [hpt]
          exact mem_sortDesc.1 (hs ▸ List.mem_cons_self t rest)
        · have : p ∈ t :: rest := List.mem_cons_of_mem t
            (List.take_subset _ _ hptk)
          exact mem_sortDesc.1 (hs ▸ this)
      have hout : get_top_features shap names n
          = (t :: rest.take (n.toNat - 1)).map
              (fun p => (p.1,
                if t.2 = 0 then 0 else pyInt (100 * p.2 / t.2))) := by
        simp only [get_top_features, rankScores, htop]
      refine ⟨?_, ?_, ?_⟩
      · rw [hout]
        simp
      · intro r hr
        rw [hout] at hr
        simp only [List.map_cons, List.head?_cons, Option.some_inj] at hr
        have h100 : 100 * t.2 / t.2 = (100 : ℚ) := by
          rw [mul_div_assoc, div_self (ne_of_gt htpos), mul_one]
        rw [← hr]
        simp only [if_neg (ne_of_gt htpos), h100]
        rw [pyInt, if_pos (by norm_num), ratFloor_eq_intFloor]
        norm_num
      · intro r hr
        rw [hout] at hr
        rcases List.mem_map.1 hr with ⟨p, hp, rfl⟩
        have hp0 : 0 ≤ p.2 := hall p (hmem_fi p hp)
        have hple : p.2 ≤ t.2 := by
          rcases List.mem_cons.1 hp with hpt | hptk
          · rw [hpt]
          · exact hdom p (List.mem_cons_of_mem t (List.take_subset _ _ hptk))
        have hq0 : 0 ≤ 100 * p.2 / t.2 :=
          div_nonneg (by linarith) (le_of_lt htpos)
        have hq100 : 100 * p.2 / t.2 ≤ 100 := by
          rw [div_le_iff htpos]
          nlinarith
        rw [if_neg (ne_of_gt htpos), pyInt, if_pos hq0,
          ratFloor_eq_intFloor]
        constructor
        · exact Int.floor_nonneg.2 hq0
        · have : (⌊100 * p.2 / t.2⌋ : ℚ) ≤ 100 :=
            le_trans (Int.floor_le _) hq100
          exact_mod_cast this

/-- Witness for C10: the invariant evaluated on the two-sample,
two-feature SHAP matrix `[[1, -2], [3, 4]]` with the source's default
`top_n = 5`. -/
theorem c10_topfeatures_normalized_witness :
    ((0 : Int) < 5) ∧
    (["a", "b"].zip (meanAbsCols [[1, -2], [3, 4]]) ≠ []) ∧
    (∃ p ∈ ["a", "b"].zip (meanAbsCols [[1, -2], [3, 4]]), 0 < p.2) ∧
    (get_top_features [[1, -2], [3, 4]] ["a", "b"] 5 ≠ [] ∧
      (∀ r, (get_top_features [[1, -2], [3, 4]] ["a", "b"] 5).head?
          = some r → r.2 = 100) ∧
      (∀ r ∈ get_top_features [[1, -2], [3, 4]] ["a", "b"] 5,
        0 ≤ r.2 ∧ r.2 ≤ 100)) := by
  have ht : List.transpose [[(1 : ℚ), -2], [3, 4]] = [[1, 3], [-2, 4]] := by
    decide
  have h0 : ["a", "b"].zip (meanAbsCols [[1, -2], [3, 4]])
      = [("a", (2 : ℚ)), ("b", 3)] := by
    norm_num [meanAbsCols, ht]
  refine ⟨by norm_num, by rw [h0]; simp, ?_, ?_⟩
  · rw [h0]
    exact ⟨("b", 3), by simp, by norm_num⟩
  · exact c10_topfeatures_normalized [[1, -2], [3, 4]] ["a", "b"] 5
      (by norm_num) (by rw [h0]; simp) (by rw [h0]; exact ⟨("b", 3), by simp,
        by norm_num⟩)
